import Mathlib

/-!
Verification development for the NotifyKit dual-path notification toolkit.

The definitions below are a shallow embedding of the TypeScript/JavaScript
sources:

* `packages/core/src/utils/timeUtils.ts` — `parseTime`, `formatTime`;
* `packages/core/src/storage/*` (IndexedDB store) — `storeNotifications`,
  `getPendingNotifications`, `markAsDelivered`, `cancelNotification`,
  `clearOldNotifications`, `clearAllNotifications`, `getAllNotifications`;
* `packages/core/src/*` (builder) — `buildNotificationId`,
  `buildScheduledNotifications`, `renderTemplate`;
* `templates/cloud-functions/src/scheduler.ts` — the server-side copy of
  `parseTime` (unanchored regex) and `scheduleTaskForUser`;
* `templates/service-worker/sw.template.js` — `cancelDeviceNotification`
  and the push-path dedup id built in `messaging.onBackgroundMessage`.

Modelling conventions: JS `number` timestamps (epoch milliseconds) become
`Int`; a JS `Date` becomes either a wall-clock triple (for the outputs of
`parseTime`, which only feed `setHours` arithmetic and `getHours`/
`getMinutes`/`toDateString` projections) or the record `JSDate` carrying
exactly the projections the code reads; fallible parsing returns `Option`;
the IndexedDB object store keyed on `id` becomes a list of records where
`put` replaces the records sharing the key.  Daylight-saving shifts are
not modelled: `setHours` rollover is plain minute arithmetic.
-/

namespace NotifyKit

/-- JS whitespace class membership for the characters relevant here
(the sources only ever meet plain spaces, tabs and line breaks). -/
def isSpaceCh (c : Char) : Bool :=
  c = ' ' ∨ c = '\t' ∨ c = '\n' ∨ c = '\r'

/-- Numeric value of a decimal digit character. -/
def digitVal (c : Char) : Nat := c.toNat - 48

/-- Value of a digit string, as `parseInt(s, 10)` computes it on an
all-digit capture. -/
def natOfDigits (ds : List Char) : Nat :=
  ds.foldl (fun a c => a * 10 + digitVal c) 0

/-- Wall-clock result of `d.setHours(h, m, 0, 0)`: day rollover plus the
displayed hour and minute (`getHours()` / `getMinutes()` afterwards). -/
structure WallTime where
  dayOffset : Nat
  hour : Nat
  minute : Nat
deriving DecidableEq, Repr

/-- `Date.prototype.setHours(h, m, 0, 0)` with possibly out-of-range
`h`/`m`: JavaScript rolls the excess into subsequent days. -/
def setHours (h m : Nat) : WallTime :=
  ⟨(h * 60 + m) / 1440, ((h * 60 + m) % 1440) / 60, (h * 60 + m) % 60⟩

/-- The shared AM/PM adjustment of both `parseTime` copies:
`PM` (`some true`) adds 12 to hours below 12, `AM` (`some false`) maps
hour 12 to 0, no marker (`none`) leaves the hour alone. -/
def applyAmPm (h : Nat) : Option Bool → Nat
  | none => h
  | some false => if h = 12 then 0 else h
  | some true => if h < 12 then h + 12 else h

/-- Tail matcher for the anchored core regex
`(?:\s*(AM|PM))?\s*$` (case-insensitive): returns `none` when the tail
fails to match, otherwise the optional AM/PM capture. -/
def matchTailAnchored (cs : List Char) : Option (Option Bool) :=
  match cs.dropWhile isSpaceCh with
  | [] => some none
  | a :: m :: rest =>
    if (a = 'A' ∨ a = 'a') ∧ (m = 'M' ∨ m = 'm') ∧ rest.all isSpaceCh then
      some (some false)
    else if (a = 'P' ∨ a = 'p') ∧ (m = 'M' ∨ m = 'm') ∧ rest.all isSpaceCh then
      some (some true)
    else none
  | _ => none

/-- `parseTime` from `packages/core/src/utils/timeUtils.ts`: matches the
anchored pattern `^\s*(\d{1,2}):(\d{2})(?:\s*(AM|PM))?\s*$` (the 1–2 digit
hour must be the maximal digit run, since a longer run leaves a digit
before the `:`), applies the AM/PM adjustment, and calls
`setHours(hours, minutes, 0, 0)` with no range validation. -/
def parseTime (s : String) : Option WallTime :=
  let cs := s.toList.dropWhile isSpaceCh
  let ds := cs.takeWhile Char.isDigit
  if ds.length = 0 ∨ 2 < ds.length then none
  else
    match cs.drop ds.length with
    | ':' :: m1 :: m2 :: tail =>
      if m1.isDigit ∧ m2.isDigit then
        match matchTailAnchored tail with
        | none => none
        | some ampm =>
          some (setHours (applyAmPm (natOfDigits ds) ampm)
            (digitVal m1 * 10 + digitVal m2))
      else none
    | _ => none

/-- Zero-padding `String(n).padStart(2, "0")` for `n < 100`. -/
def pad2 (n : Nat) : String :=
  if n < 10 then "0" ++ toString n else toString n

/-- `formatTime` from `packages/core/src/utils/timeUtils.ts`.  The source
reads only `getHours()` and `getMinutes()` of its `Date` argument, so the
embedding takes the two projections directly.  24-hour mode zero-pads
both components; 12-hour mode maps hour `0` to `12` and appends the
period. -/
def formatTime (hours minutes : Nat) (use24Hour : Bool) : String :=
  if use24Hour then pad2 hours ++ ":" ++ pad2 minutes
  else
    let h12 := hours % 12
    let h12 := if h12 = 0 then 12 else h12
    let period := if 12 ≤ hours then "PM" else "AM"
    toString h12 ++ ":" ++ pad2 minutes ++ " " ++ period

/-- One attempt of the unanchored scheduler regex
`(\d+):(\d+)\s*(AM|PM)?` at the current position: maximal digit run,
colon, maximal digit run, optional whitespace, optional AM/PM. -/
def matchAtPos (cs : List Char) : Option (Nat × Nat × Option Bool) :=
  let ds := cs.takeWhile Char.isDigit
  if ds.length = 0 then none
  else
    match cs.drop ds.length with
    | ':' :: rest =>
      let ms := rest.takeWhile Char.isDigit
      if ms.length = 0 then none
      else
        let tail := (rest.drop ms.length).dropWhile isSpaceCh
        let ampm : Option Bool :=
          match tail with
          | a :: m :: _ =>
            if (a = 'A' ∨ a = 'a') ∧ (m = 'M' ∨ m = 'm') then some false
            else if (a = 'P' ∨ a = 'p') ∧ (m = 'M' ∨ m = 'm') then some true
            else none
          | _ => none
        some (natOfDigits ds, natOfDigits ms, ampm)
    | _ => none

/-- Left-to-right scan of `String.prototype.match` with an unanchored
pattern: the first position where `matchAtPos` succeeds wins. -/
def searchTimeAux : List Char → Option (Nat × Nat × Option Bool)
  | [] => none
  | c :: cs =>
    match matchAtPos (c :: cs) with
    | some r => some r
    | none => searchTimeAux cs

/-- `parseTime` from `templates/cloud-functions/src/scheduler.ts`: the
server-side copy uses the unanchored regex `/(\d+):(\d+)\s*(AM|PM)?/i`,
so the pattern may match anywhere inside the string; the AM/PM
adjustment and `setHours` call are identical to the core copy. -/
def parseTimeSched (s : String) : Option WallTime :=
  match searchTimeAux s.toList with
  | none => none
  | some (h, m, ampm) => some (setHours (applyAmPm h ampm) m)

/-- `ScheduledNotification` from `packages/core/src/types.ts`. -/
structure ScheduledNotification where
  id : String
  categoryId : String
  eventName : String
  notificationTime : Int
  eventTimeStr : String
  title : String
  body : String
  delivered : Bool
  minutesBefore : Int
deriving DecidableEq, Repr

/-- The IndexedDB object store `scheduled` (keyPath `id`): a list of
records in insertion order.  The `by-time` secondary index only affects
the order `getAllFromIndex` returns records in, never which records
exist, so the theorems below state membership facts. -/
abbrev Store := List ScheduledNotification

/-- `db.get("scheduled", id)`: exact-key lookup. -/
def getRecord (store : Store) (id : String) : Option ScheduledNotification :=
  store.find? (fun r => r.id == id)

/-- `tx.store.put(n)` / `db.put("scheduled", n)`: replaces the record
with key `n.id` when present, otherwise appends. -/
def putRecord (store : Store) (n : ScheduledNotification) : Store :=
  if store.any (fun r => r.id == n.id) then
    store.map (fun r => if r.id == n.id then n else r)
  else store ++ [n]

/-- `tx.store.clear()`. -/
def clearTable (_store : Store) : Store := []

/-- `storeNotifications` from the IndexedDB store module: clears the
whole table, then puts every record of the new list in order. -/
def storeNotifications (store : Store) (notifications : List ScheduledNotification) : Store :=
  notifications.foldl putRecord (clearTable store)

/-- `getAllNotifications`: returns everything in the table. -/
def getAllNotifications (store : Store) : List ScheduledNotification := store

/-- `getPendingNotifications`: filters for undelivered records whose
fire time is at most `now` and strictly newer than `now` minus 30
minutes. -/
def getPendingNotifications (now : Int) (store : Store) : List ScheduledNotification :=
  store.filter (fun n =>
    !n.delivered ∧ n.notificationTime ≤ now ∧
      now - 30 * 60 * 1000 < n.notificationTime)

/-- `markAsDelivered`: looks the record up by id; when present, writes it
back with `delivered = true`; when absent, does nothing. -/
def markAsDelivered (store : Store) (id : String) : Store :=
  match getRecord store id with
  | some n => putRecord store { n with delivered := true }
  | none => store

/-- `cancelNotification`: like `markAsDelivered`, but only writes when
the record is currently undelivered. -/
def cancelNotification (store : Store) (id : String) : Store :=
  match getRecord store id with
  | some n =>
    if n.delivered then store else putRecord store { n with delivered := true }
  | none => store

/-- `clearOldNotifications`: deletes records whose fire time lies more
than 24 hours in the past. -/
def clearOldNotifications (now : Int) (store : Store) : Store :=
  store.filter (fun n => !(n.notificationTime < now - 24 * 60 * 60 * 1000))

/-- `clearAllNotifications`: full wipe. -/
def clearAllNotifications (_store : Store) : Store := []

/-- `cancelDeviceNotification` from
`templates/service-worker/sw.template.js` — same body as the core
store's `cancelNotification`, embedded separately because it is separate
code. -/
def cancelDeviceNotification (store : Store) (id : String) : Store :=
  match getRecord store id with
  | some n =>
    if n.delivered then store else putRecord store { n with delivered := true }
  | none => store

/-!  Error-path model of the store operations.  Every method wraps its
body in `try`/`catch`; the flag `storageFails` stands for the underlying
IndexedDB operation throwing.  `storeNotifications` rethrows from its
catch block; the other five catch blocks only log, so the caller sees a
normal return (and, the underlying write having failed, an unchanged
table).  The two read operations return `[]` from their catch blocks. -/

/-- `storeNotifications` with its `try`/`catch`: catch rethrows. -/
def storeNotificationsE (storageFails : Bool) (store : Store)
    (notifications : List ScheduledNotification) : Except Unit Store :=
  if storageFails then Except.error ()
  else Except.ok (storeNotifications store notifications)

/-- `getPendingNotifications` with its `try`/`catch`: catch returns `[]`. -/
def getPendingNotificationsE (storageFails : Bool) (now : Int) (store : Store) :
    Except Unit (List ScheduledNotification) :=
  if storageFails then Except.ok []
  else Except.ok (getPendingNotifications now store)

/-- `getAllNotifications` with its `try`/`catch`: catch returns `[]`. -/
def getAllNotificationsE (storageFails : Bool) (store : Store) :
    Except Unit (List ScheduledNotification) :=
  if storageFails then Except.ok []
  else Except.ok (getAllNotifications store)

/-- `markAsDelivered` with its `try`/`catch`: catch only logs. -/
def markAsDeliveredE (storageFails : Bool) (store : Store) (id : String) :
    Except Unit Store :=
  if storageFails then Except.ok store
  else Except.ok (markAsDelivered store id)

/-- `cancelNotification` with its `try`/`catch`: catch only logs. -/
def cancelNotificationE (storageFails : Bool) (store : Store) (id : String) :
    Except Unit Store :=
  if storageFails then Except.ok store
  else Except.ok (cancelNotification store id)

/-- `clearOldNotifications` with its `try`/`catch`: catch only logs. -/
def clearOldNotificationsE (storageFails : Bool) (now : Int) (store : Store) :
    Except Unit Store :=
  if storageFails then Except.ok store
  else Except.ok (clearOldNotifications now store)

/-- `clearAllNotifications` with its `try`/`catch`: catch only logs. -/
def clearAllNotificationsE (storageFails : Bool) (store : Store) :
    Except Unit Store :=
  if storageFails then Except.ok store
  else Except.ok (clearAllNotifications store)

/-- The opening brace character. -/
def lbrace : Char := Char.ofNat 123

/-- The closing brace character. -/
def rbrace : Char := Char.ofNat 125

/-- JS `\w` word characters (ASCII letters, digits, underscore). -/
def wordChar (c : Char) : Bool := c.isAlphanum ∨ c = '_'

/-- `renderTemplate` from `packages/core/src/utils/templateRenderer.ts`:
`template.replace` with the global pattern "double-brace, `(\w+)`,
double-brace"; a matched placeholder whose key is absent (JS
`undefined`/`null`, here `none`) is kept verbatim, otherwise it is
replaced by the stringified context value.  The scan advances one
character when no match starts at the current position, exactly like the
regex engine. -/
def renderAux (ctx : String → Option String) : Nat → List Char → List Char
  | _, [] => []
  | 0, cs => cs
  | fuel + 1, c :: cs =>
    if c = lbrace then
      match cs with
      | c2 :: cs2 =>
        if c2 = lbrace then
          let key := cs2.takeWhile wordChar
          if key.length = 0 then c :: renderAux ctx fuel cs
          else
            match cs2.drop key.length with
            | d1 :: d2 :: rest =>
              if d1 = rbrace ∧ d2 = rbrace then
                (match ctx (String.mk key) with
                 | some v => v.toList
                 | none => lbrace :: lbrace :: (key ++ [rbrace, rbrace])) ++
                  renderAux ctx fuel rest
              else c :: renderAux ctx fuel cs
            | _ => c :: renderAux ctx fuel cs
        else c :: renderAux ctx fuel cs
      | [] => [c]
    else c :: renderAux ctx fuel cs

/-- String-level wrapper for `renderTemplate`.  Every recursion step of
`renderAux` consumes at least one input character, so fuel equal to the
input length never runs out: the `0, cs` fallback is unreachable. -/
def renderTemplate (template : String) (ctx : String → Option String) : String :=
  String.mk (renderAux ctx template.toList.length template.toList)

/-- The projections of a JS `Date` that the builder and scheduler read:
`getTime()`, `toDateString()`, `getHours()`, `getMinutes()`. -/
structure JSDate where
  epochMs : Int
  dateString : String
  hours : Nat
  minutes : Nat
deriving DecidableEq, Repr

/-- Epoch milliseconds of day `d` at `h:m` local time, for building
concrete `JSDate` values coherently. -/
def mkEpochMs (d h m : Int) : Int := ((d * 24 + h) * 60 + m) * 60000

/-- `buildNotificationId` from the notification builder:
`categoryId + "_" + eventName + "_" + offset + "_" + date.toDateString()`. -/
def buildNotificationId (categoryId eventName : String) (date : JSDate)
    (offset : Int) : String :=
  categoryId ++ "_" ++ eventName ++ "_" ++ toString offset ++ "_" ++ date.dateString

/-- The dedup id computed inline by `messaging.onBackgroundMessage` in
`sw.template.js`: `categoryId + "_" + eventName + "_" + today`, with no
offset component. -/
def pushDedupId (categoryId eventName today : String) : String :=
  categoryId ++ "_" ++ eventName ++ "_" ++ today

/-- `notificationReference` preference value. -/
inductive NotificationReference where
  | primary
  | secondary
deriving DecidableEq, Repr

/-- `SchedulableEvent` from `packages/core/src/types.ts` (the scheduler's
copy has the same fields minus `metadata`, which it never reads); the
`metadata` map carries values already stringified, as the renderer's
`String(value)` would produce them. -/
structure SchedulableEvent where
  id : String
  categoryId : String
  name : String
  time : JSDate
  secondaryTime : Option JSDate
  metadata : List (String × String)

/-- `NotificationCategory` fields the builder reads. -/
structure Category where
  id : String
  name : String
  titleTemplate : String
  bodyTemplate : String

/-- `NotifyKitConfig` fields the builder reads. -/
structure Config where
  categories : List Category

/-- Builder preferences (`categories` is the JS record lookup with the
falsy check collapsing an absent key to `false`). -/
structure BuilderPreferences where
  categories : String → Bool
  minutesBefore : Int
  notificationReference : NotificationReference

/-- Base-time selection in `buildScheduledNotifications`:
`reference === "secondary" && event.secondaryTime ? event.secondaryTime
: event.time` (a `Date` is always truthy, `undefined` is falsy). -/
def selectBaseTime (ref : NotificationReference) (ev : SchedulableEvent) : JSDate :=
  match ref, ev.secondaryTime with
  | .secondary, some t => t
  | _, _ => ev.time

/-- Template context of the builder: the fixed fields `name`, `offset`,
`time`, `category`, with `...event.metadata` spread after them, so a
metadata key shadows a fixed field. -/
def builderContext (ev : SchedulableEvent) (offset : Int) (timeStr catName : String)
    (key : String) : Option String :=
  match ev.metadata.reverse.find? (fun p => p.1 == key) with
  | some p => some p.2
  | none =>
    if key = "name" then some ev.name
    else if key = "offset" then some (toString offset)
    else if key = "time" then some timeStr
    else if key = "category" then some catName
    else none

/-- Body of one loop iteration of `buildScheduledNotifications`:
`none` encodes `continue`. -/
def buildOne (now : Int) (prefs : BuilderPreferences) (config : Config)
    (ev : SchedulableEvent) : Option ScheduledNotification :=
  if !(prefs.categories ev.categoryId) then none
  else
    match config.categories.find? (fun c => c.id == ev.categoryId) with
    | none => none
    | some category =>
      let baseTime := selectBaseTime prefs.notificationReference ev
      let offsetMs := prefs.minutesBefore * 60 * 1000
      let notificationTime := baseTime.epochMs - offsetMs
      if notificationTime < now then none
      else
        let timeStr := formatTime baseTime.hours baseTime.minutes false
        let ctx := builderContext ev prefs.minutesBefore timeStr category.name
        some
          { id := buildNotificationId ev.categoryId ev.name ev.time prefs.minutesBefore
            categoryId := ev.categoryId
            eventName := ev.name
            notificationTime := notificationTime
            eventTimeStr := timeStr
            title := renderTemplate category.titleTemplate ctx
            body := renderTemplate category.bodyTemplate ctx
            delivered := false
            minutesBefore := prefs.minutesBefore }

/-- `buildScheduledNotifications`: the for-loop with `continue`,
pushing one record per event that survives every check. -/
def buildScheduledNotifications (now : Int) (events : List SchedulableEvent)
    (prefs : BuilderPreferences) (config : Config) : List ScheduledNotification :=
  events.filterMap (buildOne now prefs config)

/-- Server-side preferences as `scheduleTaskForUser` reads them:
`preferences.categories?.[c]` collapses to a partial map, and
`minutesBefore ?? 0` makes the offset optional. -/
structure SchedPreferences where
  categories : String → Option Bool
  minutesBefore : Option Int
  notificationReference : NotificationReference

/-- The Cloud Task the scheduler enqueues: the fields of its payload and
its `scheduleTime`. -/
structure CloudTask where
  scheduleTimeSeconds : Int
  categoryId : String
  eventName : String
  timeStr : String
  minutesBefore : Int
deriving DecidableEq, Repr

/-- Eligibility resolution in `scheduleTaskForUser`:
`overrideEnabled !== undefined ? overrideEnabled : settingEnabled` with
`settingEnabled = preferences.categories?.[c] ?? false`. -/
def isEligible (prefs : SchedPreferences)
    (dateOverrides : String → String → Option Bool) (dateStr categoryId : String) :
    Bool :=
  let settingEnabled := (prefs.categories categoryId).getD false
  match dateOverrides dateStr categoryId with
  | some b => b
  | none => settingEnabled

/-- Base-time selection in `scheduleTaskForUser` — textually the same
conditional as the builder's, embedded separately because it is separate
code. -/
def schedBaseTime (ref : NotificationReference) (ev : SchedulableEvent) : JSDate :=
  match ref, ev.secondaryTime with
  | .secondary, some t => t
  | _, _ => ev.time

/-- The display string `scheduleTaskForUser` computes inline
(`hours % 12 || 12`, zero-padded minutes, AM/PM period). -/
def schedDisplayTimeStr (hours minutes : Nat) : String :=
  let period := if 12 ≤ hours then "PM" else "AM"
  let displayHours := if hours % 12 = 0 then 12 else hours % 12
  toString displayHours ++ ":" ++ pad2 minutes ++ " " ++ period

/-- `scheduleTaskForUser` from `scheduler.ts` (pure part: the task it
would enqueue, `none` for the `return false` paths): eligibility gate,
base-time selection, fire-time computation, past-skip unless
`forceImmediate`, then the task with `scheduleTime =
Math.floor(notificationTime / 1000)` seconds. -/
def scheduleTaskForUser (now : Int) (prefs : SchedPreferences)
    (ev : SchedulableEvent) (baseDate : JSDate)
    (dateOverrides : String → String → Option Bool) (forceImmediate : Bool) :
    Option CloudTask :=
  if !(isEligible prefs dateOverrides baseDate.dateString ev.categoryId) then none
  else
    let baseTime := schedBaseTime prefs.notificationReference ev
    let offsetMinutes := prefs.minutesBefore.getD 0
    let notificationTime := baseTime.epochMs - offsetMinutes * 60 * 1000
    if !forceImmediate ∧ notificationTime < now then none
    else
      some
        { scheduleTimeSeconds := Int.fdiv notificationTime 1000
          categoryId := ev.categoryId
          eventName := ev.name
          timeStr := schedDisplayTimeStr baseTime.hours baseTime.minutes
          minutesBefore := offsetMinutes }

/-! Concrete fixtures used by the closed theorems and witnesses below:
one category, one event at 14:00 on Mon Jan 01 2024, offset 15 minutes. -/

/-- The event's primary time: 14:00 on day 0 (`"Mon Jan 01 2024"`). -/
def sampleDate : JSDate := ⟨mkEpochMs 0 14 0, "Mon Jan 01 2024", 14, 0⟩

/-- A concrete schedulable event with no secondary time. -/
def sampleEvent : SchedulableEvent :=
  ⟨"e1", "reminder", "Standup", sampleDate, none, []⟩

/-- A concrete category whose templates contain no placeholders. -/
def sampleCategory : Category := ⟨"reminder", "Reminders", "Title", "Body"⟩

/-- A concrete configuration holding `sampleCategory`. -/
def sampleConfig : Config := ⟨[sampleCategory]⟩

/-- Builder preferences enabling `reminder` with a 15-minute offset. -/
def samplePrefs : BuilderPreferences := ⟨fun c => c == "reminder", 15, .primary⟩

/-- Scheduler preferences enabling `reminder` with a 15-minute offset. -/
def sampleSchedPrefs : SchedPreferences :=
  ⟨fun c => if c = "reminder" then some true else none, some 15, .primary⟩

/-- A date override disabling `reminder` on `"Mon Jan 01 2024"`. -/
def sampleOverrides (dateStr categoryId : String) : Option Bool :=
  if dateStr = "Mon Jan 01 2024" ∧ categoryId = "reminder" then some false else none

/-- The fallback record the builder produces for `sampleEvent` at
`now = 13:00`: fire time 13:45, id built by `buildNotificationId`
(so with the offset component). -/
def fallbackRecord : ScheduledNotification :=
  { id := buildNotificationId "reminder" "Standup" sampleDate 15
    categoryId := "reminder"
    eventName := "Standup"
    notificationTime := mkEpochMs 0 13 45
    eventTimeStr := "2:00 PM"
    title := "Title"
    body := "Body"
    delivered := false
    minutesBefore := 15 }

/-- A secondary time for the event: 15:00 on the same day. -/
def sampleSecondaryDate : JSDate := ⟨mkEpochMs 0 15 0, "Mon Jan 01 2024", 15, 0⟩

/-- The sample event with a secondary time present. -/
def sampleEventWithSecondary : SchedulableEvent :=
  ⟨"e1", "reminder", "Standup", sampleDate, some sampleSecondaryDate, []⟩

/-- The Cloud Task the scheduler enqueues for `sampleEvent` at
`now = 13:00` (fire time 13:45 = 49 500 000 ms, i.e. 49 500 s). -/
def sampleTask : CloudTask := ⟨49500, "reminder", "Standup", "2:00 PM", 15⟩

/-! Helper lemmas. -/

/-- `setHours` always lands on an in-range displayed hour. -/
theorem setHours_hour_lt (h m : Nat) : (setHours h m).hour < 24 := by
  unfold setHours
  have h1 : (h * 60 + m) % 1440 < 1440 := Nat.mod_lt _ (by norm_num)
  dsimp
  omega

/-- `setHours` always lands on an in-range displayed minute. -/
theorem setHours_minute_lt (h m : Nat) : (setHours h m).minute < 60 := by
  unfold setHours
  have h1 : (h * 60 + m) % 60 < 60 := Nat.mod_lt _ (by norm_num)
  dsimp
  omega

/-- Any successful `parseTime` yields in-range displayed components,
because the result goes through `setHours`. -/
theorem parseTime_bounds {s : String} {t : WallTime} (h : parseTime s = some t) :
    t.hour < 24 ∧ t.minute < 60 := by
  unfold parseTime at h
  dsimp only at h
  split at h
  · simp at h
  · split at h
    · split at h
      · split at h
        · simp at h
        · rw [Option.some.injEq] at h
          subst h
          exact ⟨setHours_hour_lt _ _, setHours_minute_lt _ _⟩
      · simp at h
    · simp at h

/-- Brute-force check of the `parseTime`/`formatTime` round trip over
every in-range hour/minute pair and both formatting modes. -/
theorem roundtrip_bounded : ∀ h : Fin 24, ∀ m : Fin 60, ∀ b : Bool,
    parseTime (formatTime h.val m.val b) = some ⟨0, h.val, m.val⟩ := by decide

/-- Members of `putRecord store n` come from `store` or are `n`. -/
theorem mem_putRecord {store : Store} {n r : ScheduledNotification}
    (h : r ∈ putRecord store n) : r ∈ store ∨ r = n := by
  unfold putRecord at h
  split at h
  · obtain ⟨a, ha, hr⟩ := List.mem_map.mp h
    by_cases hc : (a.id == n.id) = true
    · right
      rw [← hr]
      simp [hc]
    · left
      rw [← hr]
      simpa [hc] using ha
  · rcases List.mem_append.mp h with h1 | h1
    · exact Or.inl h1
    · exact Or.inr (by simpa using h1)

/-- Members of a `putRecord` fold come from the accumulator or the
inserted list. -/
theorem mem_foldl_putRecord :
    ∀ (ns : List ScheduledNotification) (acc : Store) (r : ScheduledNotification),
      r ∈ ns.foldl putRecord acc → r ∈ acc ∨ r ∈ ns := by
  intro ns
  induction ns with
  | nil => intro acc r h; exact Or.inl h
  | cons n ns ih =>
    intro acc r h
    simp only [List.foldl_cons] at h
    rcases ih _ r h with h1 | h1
    · rcases mem_putRecord h1 with h2 | h2
      · exact Or.inl h2
      · exact Or.inr (by simp [h2])
    · exact Or.inr (List.mem_cons_of_mem _ h1)

/-- When the inserted ids are fresh and mutually distinct, the
`putRecord` fold is a plain append. -/
theorem foldl_putRecord_eq_of_nodup :
    ∀ (ns : List ScheduledNotification) (acc : Store),
      ((acc ++ ns).map ScheduledNotification.id).Nodup →
      ns.foldl putRecord acc = acc ++ ns := by
  intro ns
  induction ns with
  | nil => intro acc _; simp
  | cons n ns ih =>
    intro acc hnd
    have hfresh : acc.any (fun r => r.id == n.id) = false := by
      by_contra hany
      rw [Bool.not_eq_false, List.any_eq_true] at hany
      obtain ⟨a, ha, hbeq⟩ := hany
      have heq : a.id = n.id := by simpa using hbeq
      have hdisj : (acc.map ScheduledNotification.id).Disjoint
          ((n :: ns).map ScheduledNotification.id) := by
        have h2 := hnd
        rw [List.map_append, List.nodup_append] at h2
        exact h2.2.2
      exact hdisj (List.mem_map_of_mem _ ha) (by simp [heq])
    have hput : putRecord acc n = acc ++ [n] := by
      unfold putRecord
      rw [hfresh]
      simp
    simp only [List.foldl_cons, hput]
    have := ih (acc ++ [n]) (by simpa using hnd)
    rw [this]
    simp

/-- Updating by key moves the exact-key lookup to the new record. -/
theorem find?_map_update (l : List ScheduledNotification) (id : String)
    (n n' : ScheduledNotification) (hid : n'.id = id)
    (h : l.find? (fun r => r.id == id) = some n) :
    (l.map (fun r => if r.id == n'.id then n' else r)).find?
      (fun r => r.id == id) = some n' := by
  induction l with
  | nil => simp at h
  | cons a l ih =>
    by_cases pa : (a.id == id) = true
    · have ha : a.id = id := by simpa using pa
      have hcond : (a.id == n'.id) = true := by simp [ha, hid]
      simp only [List.map_cons, hcond, if_pos rfl, List.find?_cons]
      simp [hid]
    · have ha : a.id ≠ id := by simpa using pa
      have hcond : (a.id == n'.id) = false := by simp [hid, ha]
      rw [List.find?_cons_of_neg _ (by simp [pa])] at h
      simp only [List.map_cons, hcond]
      rw [if_neg (by simp [hid, ha])]
      rw [List.find?_cons_of_neg _ (by simp [pa])]
      exact ih h

/-- After `putRecord store n'`, looking `n'.id` up finds `n'`, provided
a record with that key was already present. -/
theorem getRecord_putRecord {store : Store} {n n' : ScheduledNotification}
    {id : String} (h : getRecord store id = some n) (hid : n'.id = n.id) :
    getRecord (putRecord store n') id = some n' := by
  have hnid : n.id = id := by
    have := List.find?_some h
    simpa using this
  have hmem : n ∈ store := List.mem_of_find?_eq_some h
  have hany : store.any (fun r => r.id == n'.id) = true := by
    rw [List.any_eq_true]
    exact ⟨n, hmem, by simp [hid]⟩
  unfold putRecord
  rw [hany]
  simp only [if_pos rfl]
  exact find?_map_update store id n n' (by rw [hid, hnid]) h

/-- A member of `putRecord store n'` that carries the key `n'.id` is
`n'` itself. -/
theorem eq_of_mem_putRecord_id {store : Store} {n' r : ScheduledNotification}
    (h : r ∈ putRecord store n') (hid : r.id = n'.id) : r = n' := by
  unfold putRecord at h
  split at h
  · obtain ⟨a, _, hr⟩ := List.mem_map.mp h
    by_cases hc : (a.id == n'.id) = true
    · rw [← hr]
      simp [hc]
    · exfalso
      have : a = r := by simpa [hc] using hr
      rw [this] at hc
      simp [hid] at hc
  · rename_i hany
    rcases List.mem_append.mp h with h1 | h1
    · exfalso
      have : store.any (fun r => r.id == n'.id) = true :=
        List.any_eq_true.mpr ⟨r, h1, by simp [hid]⟩
      simp [this] at hany
    · simpa using h1

/-! Claim theorems. -/

/-- C1: the push-path dedup id
(`categoryId_eventName_dateString`, no offset component) never equals
the id `buildNotificationId` stores
(`categoryId_eventName_offset_dateString`), so `cancelDeviceNotification`
performs an exact-key lookup that misses, and the fallback record built
for the same category, event and date stays undelivered: the push does
NOT reach and cancel it.  Concretely, the builder stores the 13:45
fallback record for event `Standup` of category `reminder` on
`Mon Jan 01 2024`; a push for the same category/event/date computes id
`reminder_Standup_Mon Jan 01 2024`, and cancelling under that id leaves
the store unchanged with the record still pending. -/
theorem c1_push_cancel_misses_fallback_record :
    buildScheduledNotifications (mkEpochMs 0 13 0) [sampleEvent] samplePrefs
        sampleConfig = [fallbackRecord] ∧
    storeNotifications [] [fallbackRecord] = [fallbackRecord] ∧
    pushDedupId "reminder" "Standup" "Mon Jan 01 2024" =
      "reminder_Standup_Mon Jan 01 2024" ∧
    (pushDedupId "reminder" "Standup" "Mon Jan 01 2024" == fallbackRecord.id) =
      false ∧
    cancelDeviceNotification [fallbackRecord]
        (pushDedupId "reminder" "Standup" "Mon Jan 01 2024") = [fallbackRecord] ∧
    getRecord [fallbackRecord] fallbackRecord.id = some fallbackRecord ∧
    fallbackRecord.delivered = false := by
  decide

/-- C2 counterexample: the claim says every write operation surfaces the
underlying storage error, but `markAsDelivered`, `cancelNotification`,
`clearOldNotifications` and `clearAllNotifications` catch it and return
normally (`Except.ok`): only `storeNotifications` rethrows. -/
theorem c2_writes_swallow_errors_counterexample :
    markAsDeliveredE true [] "x" = Except.ok [] ∧
    cancelNotificationE true [] "x" = Except.ok [] ∧
    clearOldNotificationsE true 0 [] = Except.ok [] ∧
    clearAllNotificationsE true [] = Except.ok [] ∧
    storeNotificationsE true [] [] = Except.error () := by
  constructor
  · rfl
  · constructor
    · rfl
    · constructor
      · rfl
      · constructor
        · rfl
        · rfl

/-- C2 amended: when the underlying storage fails, both read operations
return an empty list instead of propagating; among the write operations
only `storeNotifications` surfaces the error to its caller, while
`markAsDelivered`, `cancelNotification`, `clearOldNotifications` and
`clearAllNotifications` catch it and return normally with the table
unchanged. -/
theorem c2_error_paths (store : Store) (ns : List ScheduledNotification)
    (id : String) (now : Int) :
    getPendingNotificationsE true now store = Except.ok [] ∧
    getAllNotificationsE true store = Except.ok [] ∧
    storeNotificationsE true store ns = Except.error () ∧
    markAsDeliveredE true store id = Except.ok store ∧
    cancelNotificationE true store id = Except.ok store ∧
    clearOldNotificationsE true now store = Except.ok store ∧
    clearAllNotificationsE true store = Except.ok store :=
  ⟨rfl, rfl, rfl, rfl, rfl, rfl, rfl⟩

/-- C4: `getPendingNotifications` returns exactly the stored records
with `delivered = false`, fire time at most `now`, and fire time
strictly within the trailing 30-minute window; delivered records, stale
records and future records are excluded. -/
theorem c4_pending_window (now : Int) (store : Store)
    (n : ScheduledNotification) :
    n ∈ getPendingNotifications now store ↔
      n ∈ store ∧ n.delivered = false ∧ n.notificationTime ≤ now ∧
        now - 30 * 60 * 1000 < n.notificationTime := by
  unfold getPendingNotifications
  rw [List.mem_filter]
  simp [and_assoc]

/-- C9: in eligibility resolution a defined date override decides the
outcome for that date regardless of the base category flag, and an
undefined override falls back to `preferences.categories[c] ?? false`. -/
theorem c9_date_override_precedence (prefs : SchedPreferences)
    (ov : String → String → Option Bool) (dateStr c : String) :
    (∀ b, ov dateStr c = some b → isEligible prefs ov dateStr c = b) ∧
    (ov dateStr c = none →
      isEligible prefs ov dateStr c = (prefs.categories c).getD false) := by
  constructor
  · intro b h
    unfold isEligible
    rw [h]
  · intro h
    unfold isEligible
    rw [h]

/-- C9 witness: the concrete override disables the `reminder` category
on `Mon Jan 01 2024` even though the base preference enables it, and
with no override the base value applies. -/
theorem c9_date_override_precedence_witness :
    isEligible sampleSchedPrefs sampleOverrides "Mon Jan 01 2024" "reminder" =
      false ∧
    isEligible sampleSchedPrefs (fun _ _ => none) "Mon Jan 01 2024" "reminder" =
      (sampleSchedPrefs.categories "reminder").getD false :=
  ⟨(c9_date_override_precedence sampleSchedPrefs sampleOverrides
      "Mon Jan 01 2024" "reminder").1 false (by decide),
   (c9_date_override_precedence sampleSchedPrefs (fun _ _ => none)
      "Mon Jan 01 2024" "reminder").2 rfl⟩

/-- C10: `parseTime` performs no range validation — `"99:99"` parses to
a non-null result whose out-of-range components are rolled over by
`setHours` (four days later, 04:39) — and the server-side scheduler's
copy matches its unanchored pattern inside surrounding text, where the
core's anchored copy rejects the same input. -/
theorem c10_no_range_validation :
    parseTime "99:99" = some ⟨4, 4, 39⟩ ∧
    setHours 99 99 = ⟨4, 4, 39⟩ ∧
    parseTimeSched "abc 5:30 xyz" = some ⟨0, 5, 30⟩ ∧
    parseTime "abc 5:30 xyz" = none := by
  decide

/-- C3: for every string `parseTime` accepts, formatting the parsed
hour/minute pair (in either mode) and parsing it back reproduces the
same pair; in particular, formatting `parseTime "1:00 PM"` gives
`"1:00 PM"` and formatting `parseTime "13:00"` in 24-hour mode gives
`"13:00"`. -/
theorem c3_format_parse_roundtrip :
    (∀ (s : String) (t : WallTime) (b : Bool), parseTime s = some t →
        parseTime (formatTime t.hour t.minute b) = some ⟨0, t.hour, t.minute⟩) ∧
    (parseTime "1:00 PM").map (fun t => formatTime t.hour t.minute false) =
      some "1:00 PM" ∧
    (parseTime "13:00").map (fun t => formatTime t.hour t.minute true) =
      some "13:00" := by
  refine ⟨?_, by decide, by decide⟩
  intro s t b h
  obtain ⟨h24, h60⟩ := parseTime_bounds h
  exact roundtrip_bounded ⟨t.hour, h24⟩ ⟨t.minute, h60⟩ b

/-- C3 witness: the round trip at the parsed value of `"13:00"`. -/
theorem c3_format_parse_roundtrip_witness :
    parseTime (formatTime 13 0 true) = some ⟨0, 13, 0⟩ :=
  c3_format_parse_roundtrip.1 "13:00" ⟨0, 13, 0⟩ true (by decide)

/-- C5: `storeNotifications` is a full replace: afterwards
`getAllNotifications` returns exactly the new list (stated for lists
with distinct ids, which inserts by key cannot collapse), and in every
case each surviving record comes from the new list — so every previously
stored record absent from it, delivered or not, is gone. -/
theorem c5_store_full_replace (old ns : List ScheduledNotification) :
    ((ns.map ScheduledNotification.id).Nodup →
      getAllNotifications (storeNotifications old ns) = ns) ∧
    (∀ r, r ∈ getAllNotifications (storeNotifications old ns) → r ∈ ns) := by
  constructor
  · intro hnd
    unfold storeNotifications clearTable getAllNotifications
    have h := foldl_putRecord_eq_of_nodup ns [] (by simpa using hnd)
    simpa using h
  · intro r hr
    unfold storeNotifications clearTable getAllNotifications at hr
    rcases mem_foldl_putRecord ns [] r hr with h | h
    · simp at h
    · exact h

/-- C5 witness: re-storing with the empty list drops the previously
stored (undelivered) record, and every survivor of a store comes from
the new list. -/
theorem c5_store_full_replace_witness :
    getAllNotifications (storeNotifications [fallbackRecord] []) = [] ∧
    fallbackRecord ∈ ([fallbackRecord] : List ScheduledNotification) :=
  ⟨(c5_store_full_replace [fallbackRecord] []).1 (by decide),
   (c5_store_full_replace [] [fallbackRecord]).2 fallbackRecord (by decide)⟩

/-- C6: `cancelNotification` is a no-op on an absent id and on an
already-delivered record (idempotence); on a pending record it flips
`delivered` to `true`, after which `getPendingNotifications` excludes
every record under that id. -/
theorem c6_cancel_idempotent (store : Store) (id : String) (now : Int) :
    (getRecord store id = none → cancelNotification store id = store) ∧
    (∀ n, getRecord store id = some n → n.delivered = true →
        cancelNotification store id = store) ∧
    (∀ n, getRecord store id = some n → n.delivered = false →
        getRecord (cancelNotification store id) id =
          some { n with delivered := true } ∧
        ∀ r, r ∈ getPendingNotifications now (cancelNotification store id) →
          (r.id == id) = false) := by
  refine ⟨?_, ?_, ?_⟩
  · intro h
    unfold cancelNotification
    rw [h]
  · intro n h hdel
    unfold cancelNotification
    rw [h]
    dsimp only
    rw [if_pos hdel]
  · intro n h hdel
    have hcancel : cancelNotification store id =
        putRecord store { n with delivered := true } := by
      unfold cancelNotification
      rw [h]
      dsimp only
      rw [if_neg (by simp [hdel])]
    have hid : ({ n with delivered := true } : ScheduledNotification).id = n.id :=
      rfl
    constructor
    · rw [hcancel]
      exact getRecord_putRecord h hid
    · intro r hr
      rw [hcancel] at hr
      unfold getPendingNotifications at hr
      rw [List.mem_filter] at hr
      obtain ⟨hmem, hpred⟩ := hr
      by_contra hbeq
      rw [Bool.not_eq_false] at hbeq
      have hrid : r.id = id := by simpa using hbeq
      have hnid : n.id = id := by simpa using List.find?_some h
      have hr' : r = { n with delivered := true } :=
        eq_of_mem_putRecord_id hmem (by rw [hrid, hid, hnid])
      rw [hr'] at hpred
      simp at hpred

/-- C6 witness: cancelling an absent id and an already-delivered record
leaves the store unchanged; cancelling the pending fallback record under
its exact id marks it delivered. -/
theorem c6_cancel_idempotent_witness :
    cancelNotification [] fallbackRecord.id = [] ∧
    cancelNotification [{ fallbackRecord with delivered := true }]
        fallbackRecord.id = [{ fallbackRecord with delivered := true }] ∧
    getRecord (cancelNotification [fallbackRecord] fallbackRecord.id)
        fallbackRecord.id = some { fallbackRecord with delivered := true } :=
  ⟨(c6_cancel_idempotent [] fallbackRecord.id 0).1 (by decide),
   (c6_cancel_idempotent [{ fallbackRecord with delivered := true }]
      fallbackRecord.id 0).2.1 { fallbackRecord with delivered := true }
      (by decide) (by decide),
   ((c6_cancel_idempotent [fallbackRecord] fallbackRecord.id 0).2.2 fallbackRecord
      (by decide) (by decide)).1⟩

/-- C7: in both the builder and the server scheduler, the base time is
the event's secondary time iff the reference preference is `secondary`
and the event has one; a `primary` reference, or a missing secondary
time, always selects the primary time (both selections are total
functions — no error path exists). -/
theorem c7_secondary_reference (ref : NotificationReference)
    (ev : SchedulableEvent) :
    (∀ t, ev.secondaryTime = some t → ref = .secondary →
        selectBaseTime ref ev = t ∧ schedBaseTime ref ev = t) ∧
    (ref = .primary →
        selectBaseTime ref ev = ev.time ∧ schedBaseTime ref ev = ev.time) ∧
    (ev.secondaryTime = none →
        selectBaseTime ref ev = ev.time ∧ schedBaseTime ref ev = ev.time) := by
  refine ⟨?_, ?_, ?_⟩
  · intro t hsec href
    subst href
    constructor <;> simp [selectBaseTime, schedBaseTime, hsec]
  · intro href
    subst href
    cases h : ev.secondaryTime <;>
      constructor <;> simp [selectBaseTime, schedBaseTime, h]
  · intro hnone
    cases ref <;> constructor <;> simp [selectBaseTime, schedBaseTime, hnone]

/-- C7 witness: the `secondary` preference picks the secondary time when
present; a `primary` preference, or a missing secondary time, picks the
primary time — in both code paths. -/
theorem c7_secondary_reference_witness :
    (selectBaseTime .secondary sampleEventWithSecondary = sampleSecondaryDate ∧
      schedBaseTime .secondary sampleEventWithSecondary = sampleSecondaryDate) ∧
    (selectBaseTime .primary sampleEvent = sampleEvent.time ∧
      schedBaseTime .primary sampleEvent = sampleEvent.time) ∧
    (selectBaseTime .secondary sampleEvent = sampleEvent.time ∧
      schedBaseTime .secondary sampleEvent = sampleEvent.time) :=
  ⟨(c7_secondary_reference .secondary sampleEventWithSecondary).1
      sampleSecondaryDate rfl rfl,
   (c7_secondary_reference .primary sampleEvent).2.1 rfl,
   (c7_secondary_reference .secondary sampleEvent).2.2 rfl⟩

/-- C8: every record the builder emits has
`notificationTime = baseTime - minutesBefore*60*1000` and is not
past-dated; a past fire time makes the builder skip the event, and makes
the scheduler (under its default `forceImmediate = false`, the only
value any caller passes) enqueue nothing; every task the scheduler does
enqueue is scheduled at `floor(fireTime / 1000)` seconds of a
non-past fire time.  Concretely, a 14:00 event with a 15-minute offset
yields fire time 13:45 of the same day at `now = 13:00` and no record at
`now = 13:46`. -/
theorem c8_fire_time :
    (∀ (now : Int) (events : List SchedulableEvent) (prefs : BuilderPreferences)
        (config : Config) (r : ScheduledNotification),
        r ∈ buildScheduledNotifications now events prefs config →
        ∃ ev, ev ∈ events ∧
          r.notificationTime =
            (selectBaseTime prefs.notificationReference ev).epochMs -
              prefs.minutesBefore * 60 * 1000 ∧
          now ≤ r.notificationTime) ∧
    (∀ (now : Int) (prefs : BuilderPreferences) (config : Config)
        (ev : SchedulableEvent),
        (selectBaseTime prefs.notificationReference ev).epochMs -
            prefs.minutesBefore * 60 * 1000 < now →
        buildOne now prefs config ev = none) ∧
    (∀ (now : Int) (prefs : SchedPreferences) (ev : SchedulableEvent)
        (baseDate : JSDate) (ov : String → String → Option Bool)
        (t : CloudTask),
        scheduleTaskForUser now prefs ev baseDate ov false = some t →
        t.scheduleTimeSeconds =
          Int.fdiv ((schedBaseTime prefs.notificationReference ev).epochMs -
            prefs.minutesBefore.getD 0 * 60 * 1000) 1000 ∧
        now ≤ (schedBaseTime prefs.notificationReference ev).epochMs -
          prefs.minutesBefore.getD 0 * 60 * 1000) ∧
    (∀ (now : Int) (prefs : SchedPreferences) (ev : SchedulableEvent)
        (baseDate : JSDate) (ov : String → String → Option Bool),
        (schedBaseTime prefs.notificationReference ev).epochMs -
            prefs.minutesBefore.getD 0 * 60 * 1000 < now →
        scheduleTaskForUser now prefs ev baseDate ov false = none) ∧
    (buildScheduledNotifications (mkEpochMs 0 13 0) [sampleEvent] samplePrefs
        sampleConfig).map (fun r => r.notificationTime) = [mkEpochMs 0 13 45] ∧
    buildScheduledNotifications (mkEpochMs 0 13 46) [sampleEvent] samplePrefs
      sampleConfig = [] := by
  refine ⟨?_, ?_, ?_, ?_, by decide, by decide⟩
  · intro now events prefs config r hr
    unfold buildScheduledNotifications at hr
    obtain ⟨ev, hev, hsome⟩ := List.mem_filterMap.mp hr
    refine ⟨ev, hev, ?_⟩
    unfold buildOne at hsome
    dsimp only at hsome
    split at hsome
    · simp at hsome
    · split at hsome
      · simp at hsome
      · split at hsome
        · simp at hsome
        · rename_i hnot
          rw [Option.some.injEq] at hsome
          subst hsome
          exact ⟨rfl, Int.not_lt.mp hnot⟩
  · intro now prefs config ev hpast
    unfold buildOne
    dsimp only
    split
    · rfl
    · split
      · rfl
      · rfl
  · intro now prefs ev baseDate ov t h
    unfold scheduleTaskForUser at h
    dsimp only at h
    split at h
    · simp at h
    · split at h
      · simp at h
      · rename_i hnot
        rw [Option.some.injEq] at h
        subst h
        refine ⟨rfl, ?_⟩
        simp only [Bool.not_false, true_and] at hnot
        exact Int.not_lt.mp hnot
  · intro now prefs ev baseDate ov hpast
    unfold scheduleTaskForUser
    dsimp only
    split
    · rfl
    · rw [if_pos ⟨rfl, hpast⟩]

/-- C8 witness: at `now = 13:00` the built record and the enqueued task
both carry the 13:45 fire time; at `now = 13:46` the fire time is past,
so neither the builder nor the scheduler produces anything. -/
theorem c8_fire_time_witness :
    (∃ ev, ev ∈ [sampleEvent] ∧
        fallbackRecord.notificationTime =
          (selectBaseTime samplePrefs.notificationReference ev).epochMs -
            samplePrefs.minutesBefore * 60 * 1000 ∧
        mkEpochMs 0 13 0 ≤ fallbackRecord.notificationTime) ∧
    buildOne (mkEpochMs 0 13 46) samplePrefs sampleConfig sampleEvent = none ∧
    (sampleTask.scheduleTimeSeconds =
        Int.fdiv ((schedBaseTime sampleSchedPrefs.notificationReference
              sampleEvent).epochMs -
          sampleSchedPrefs.minutesBefore.getD 0 * 60 * 1000) 1000 ∧
      mkEpochMs 0 13 0 ≤
        (schedBaseTime sampleSchedPrefs.notificationReference
            sampleEvent).epochMs -
          sampleSchedPrefs.minutesBefore.getD 0 * 60 * 1000) ∧
    scheduleTaskForUser (mkEpochMs 0 13 46) sampleSchedPrefs sampleEvent
        sampleDate (fun _ _ => none) false = none :=
  ⟨c8_fire_time.1 (mkEpochMs 0 13 0) [sampleEvent] samplePrefs sampleConfig
      fallbackRecord (by decide),
   c8_fire_time.2.1 (mkEpochMs 0 13 46) samplePrefs sampleConfig sampleEvent
      (by decide),
   c8_fire_time.2.2.1 (mkEpochMs 0 13 0) sampleSchedPrefs sampleEvent
      sampleDate (fun _ _ => none) sampleTask (by decide),
   c8_fire_time.2.2.2.1 (mkEpochMs 0 13 46) sampleSchedPrefs sampleEvent
      sampleDate (fun _ _ => none) (by decide)⟩

end NotifyKit
